import Mathlib

/-!
# Verification of the MultiCrawl fetch scheduling and reliability layer

Shallow embedding of the crawler repository's core:

* `BaseCrawler.validate_url` (src/src/crawler/base_crawler.py) — the URL
  regular expression, embedded as an executable backtracking matcher;
* `SequentialCrawler.fetch_url` / `crawl` (src/src/crawler/sequential_crawler.py);
* `AsyncCrawler.fetch_url` / `crawl` (src/src/crawler/async_crawler.py);
* `ThreadedCrawler._fetch_url_thread` (src/src/crawler/threaded_crawler.py);
* `ErrorHandler.retry` (src/src/utils/error_handler.py);
* `AsyncRateLimiter` (src/src/utils/rate_limiter.py), together with a small-step
  event-loop semantics for tasks suspended inside its `__aenter__`;
* the attribute sets written by the crawler constructors, to settle claims about
  attribute reads (`max_retries`, `timeout`) that no constructor initializes.

Time and delays are modelled as rationals (`ℚ`).  HTML parsing (BeautifulSoup)
and the HTTP clients (`requests`, `aiohttp`) are external collaborators: a
network backend is modelled as a function from URL to an HTTP result, and the
BeautifulSoup extraction `soup.find_all('div', class_='job-posting')` /
`job.find('h2').text` is modelled by the list of job titles that the body
parses to, carried on the backend's response.
-/

/-! ## The URL regular expression of `BaseCrawler.validate_url`

The Python code compiles (with `re.IGNORECASE`) the pattern

  `^https?://`
  `(?:(?:[A-Z0-9](?:[A-Z0-9-]{0,61}[A-Z0-9])?\.)+[A-Z]{2,6}\.?|localhost|`
  `\d{1,3}\.\d{1,3}\.\d{1,3}\.\d{1,3})`
  `(?::\d+)?`
  `(?:/?|[/?]\S+)$`

and tests it with `re.match` (anchored at the start; the final `$` accepts the
end of the string or a position just before one trailing newline).

We embed it as a continuation-passing backtracking matcher over `List Char`,
so that the match set is exactly the regex's.  Character classes are taken in
their ASCII reading (`[A-Z]` under IGNORECASE = ASCII letters, `\d` = ASCII
digits, `\S` = not an ASCII whitespace character); Python's Unicode reading
additionally admits a few exotic codepoints that no claim touches.
Unbounded repetition (`+`) is run with fuel equal to the input length, which
bounds the number of iterations since every repeated group consumes at least
one character. -/

/-- A backtracking matcher: consumes a prefix of the input and passes the rest
to the continuation; the result is true iff some way of matching makes the
continuation succeed. -/
def Matcher : Type := List Char → (List Char → Bool) → Bool

/-- Match one character satisfying `p`. -/
def mch (p : Char → Bool) : Matcher := fun s k =>
  match s with
  | [] => false
  | c :: r => p c && k r

/-- The empty match. -/
def meps : Matcher := fun s k => k s

/-- Sequencing of matchers. -/
def mseq (a b : Matcher) : Matcher := fun s k => a s fun r => b r k

/-- Alternation of matchers (regex `|`). -/
def malt (a b : Matcher) : Matcher := fun s k => a s k || b s k

/-- Optional matcher (regex `?`). -/
def mopt (a : Matcher) : Matcher := fun s k => a s k || k s

/-- At most `n` repetitions (used for counted repetition such as `{0,61}`). -/
def mUpTo (a : Matcher) : ℕ → Matcher
  | 0 => meps
  | n + 1 => fun s k => a s (fun r => mUpTo a n r k) || k s

/-- Exactly `n` repetitions. -/
def mTimes (a : Matcher) : ℕ → Matcher
  | 0 => meps
  | n + 1 => mseq a (mTimes a n)

/-- Between `lo` and `hi` repetitions (regex `{lo,hi}`). -/
def mRange (a : Matcher) (lo hi : ℕ) : Matcher :=
  mseq (mTimes a lo) (mUpTo a (hi - lo))

/-- Kleene star bounded by fuel; fuel at least the input length makes the
match set that of the unbounded star whenever the repeated matcher consumes
at least one character per iteration. -/
def mStar (a : Matcher) : ℕ → Matcher
  | 0 => meps
  | n + 1 => fun s k => k s || a s (fun r => mStar a n r k)

/-- One or more repetitions (regex `+`), with fuel for the iterations beyond
the first. -/
def mPlus (a : Matcher) (fuel : ℕ) : Matcher :=
  mseq a (mStar a fuel)

/-- ASCII lowercasing, for `re.IGNORECASE` literal characters. -/
def lowerAscii (c : Char) : Char :=
  if 'A' ≤ c && c ≤ 'Z' then Char.ofNat (c.toNat + 32) else c

/-- Match one literal character, case-insensitively (`re.IGNORECASE`). -/
def mchi (c : Char) : Matcher :=
  mch (fun x => lowerAscii x = lowerAscii c)

/-- Match a literal string, case-insensitively. -/
def mlit (cs : List Char) : Matcher :=
  cs.foldr (fun c m => mseq (mchi c) m) meps

/-- `[A-Z]` under IGNORECASE: an ASCII letter. -/
def isAsciiLetter (c : Char) : Bool :=
  ('A' ≤ c && c ≤ 'Z') || ('a' ≤ c && c ≤ 'z')

/-- `\d`: an ASCII digit. -/
def isAsciiDigit (c : Char) : Bool :=
  '0' ≤ c && c ≤ '9'

/-- `[A-Z0-9]` under IGNORECASE. -/
def isAlnum (c : Char) : Bool :=
  isAsciiLetter c || isAsciiDigit c

/-- `\s` restricted to ASCII: space, tab, newline, carriage return, vertical
tab, form feed. -/
def isPyWhitespace (c : Char) : Bool :=
  c = ' ' || c = '\t' || c = '\n' || c = '\r' || c = '\x0b' || c = '\x0c'

namespace BaseCrawler

/-- One domain label with its trailing dot:
`[A-Z0-9](?:[A-Z0-9-]{0,61}[A-Z0-9])?\.` -/
def labelDot : Matcher :=
  mseq (mch isAlnum)
    (mseq (mopt (mseq (mRange (mch fun c => isAlnum c || c = '-') 0 61)
                      (mch isAlnum)))
          (mch fun c => c = '.'))

/-- The domain alternative: `(?:label\.)+[A-Z]{2,6}\.?`. -/
def domainAlt (fuel : ℕ) : Matcher :=
  mseq (mPlus labelDot fuel)
    (mseq (mRange (mch isAsciiLetter) 2 6) (mopt (mch fun c => c = '.')))

/-- One IPv4 octet: `\d{1,3}`. -/
def ipOctet : Matcher := mRange (mch isAsciiDigit) 1 3

/-- The IP alternative: `\d{1,3}\.\d{1,3}\.\d{1,3}\.\d{1,3}`. -/
def ipAlt : Matcher :=
  mseq ipOctet (mseq (mch fun c => c = '.')
    (mseq ipOctet (mseq (mch fun c => c = '.')
      (mseq ipOctet (mseq (mch fun c => c = '.') ipOctet)))))

/-- The scheme: `https?://`. -/
def schemePart : Matcher :=
  mseq (mlit [ 'h', 't', 't', 'p']) (mseq (mopt (mchi 's'))
    (mseq (mch fun c => c = ':') (mseq (mch fun c => c = '/') (mch fun c => c = '/'))))

/-- The host: domain, `localhost`, or IPv4 literal. -/
def hostPart (fuel : ℕ) : Matcher :=
  malt (domainAlt fuel) (malt (mlit [ 'l', 'o', 'c', 'a', 'l', 'h', 'o', 's', 't']) ipAlt)

/-- The optional port: `(?::\d+)?`. -/
def portPart (fuel : ℕ) : Matcher :=
  mopt (mseq (mch fun c => c = ':') (mPlus (mch isAsciiDigit) fuel))

/-- The tail: `(?:/?|[/?]\S+)`. -/
def tailPart (fuel : ℕ) : Matcher :=
  malt (mopt (mch fun c => c = '/'))
       (mseq (mch fun c => c = '/' || c = '?')
             (mPlus (mch fun c => !isPyWhitespace c) fuel))

/-- `$` in a non-MULTILINE Python pattern: the end of the string, or a
position immediately before one final newline. -/
def atEnd (r : List Char) : Bool :=
  r = [] || r = ['\n']

/-- `BaseCrawler.validate_url`: `bool(url_pattern.match(url))`. -/
def validate_url (url : String) : Bool :=
  let s := url.data
  let fuel := s.length
  mseq schemePart (mseq (hostPart fuel) (mseq (portPart fuel) (tailPart fuel))) s atEnd

end BaseCrawler

/-! ## The network backend model

Both HTTP clients (`requests` for the sequential and threaded crawlers,
`aiohttp` for the async crawler) are external collaborators.  A deterministic
backend maps a URL to either a response (status code, body text, and the job
titles BeautifulSoup's `job-posting` extraction yields on that body) or a
raised client exception (connection error / timeout), the same on every
attempt. -/

/-- Result of one HTTP request for a URL. -/
inductive HttpResult where
  /-- A response was obtained: status code, body text, and the job titles the
  body parses to (the BeautifulSoup collaborator's output). -/
  | resp (status : ℕ) (text : String) (jobTitles : List String)
  /-- The client raised (`requests.RequestException` resp.
  `aiohttp.ClientError` / `asyncio.TimeoutError`): carried message. -/
  | exn (msg : String)
deriving DecidableEq

/-- A deterministic fetch backend. -/
def Backend : Type := String → HttpResult

/-- Decidable equality for `Except` results, so concrete evaluations of the
fetch loops can be settled by `decide`. -/
instance decEqExcept {E A : Type} [DecidableEq E] [DecidableEq A] :
    DecidableEq (Except E A) := fun a b =>
  match a, b with
  | .ok x, .ok y =>
      if h : x = y then .isTrue (by rw [h]) else .isFalse (fun hc => h (Except.ok.inj hc))
  | .error e, .error f =>
      if h : e = f then .isTrue (by rw [h]) else .isFalse (fun hc => h (Except.error.inj hc))
  | .ok _, .error _ => .isFalse (fun hc => Except.noConfusion hc)
  | .error _, .ok _ => .isFalse (fun hc => Except.noConfusion hc)

/-- `requests.Response.raise_for_status` raises `requests.HTTPError` exactly
for client-error (4xx) and server-error (5xx) status codes. -/
def requestsRaises (status : ℕ) : Bool :=
  400 ≤ status && status < 600

/-- `aiohttp.ClientResponse.raise_for_status` raises
`aiohttp.ClientResponseError` (a `ClientError`) for every status ≥ 400. -/
def aiohttpRaises (status : ℕ) : Bool :=
  400 ≤ status

/-- The message `str(e)` of the `requests.HTTPError` raised by
`raise_for_status` (reason text abstracted; no claim inspects it). -/
def httpErrorMsg (status : ℕ) (url : String) : String :=
  toString status ++ " Error for url: " ++ url

/-! ## `SequentialCrawler` (src/src/crawler/sequential_crawler.py)

`fetch_url` validates the URL (returning the empty dict `{}` on failure),
calls `self.rate_limit()` (a `time.sleep`-based limiter), performs one
`requests.get`, `raise_for_status`, parses job postings, and returns either a
success dict `{url, status_code, job_count, titles}` or, on
`requests.RequestException`, the failure dict `{url, error}`.  `crawl` maps
`fetch_url` over `self.urls` in order. -/

/-- The dictionary returned by `SequentialCrawler.fetch_url`. -/
inductive SeqOutcome where
  /-- `{}` — returned for a URL that fails validation. -/
  | empty
  /-- `{'url', 'status_code', 'job_count', 'titles'}`. -/
  | success (url : String) (status_code : ℕ) (job_count : ℕ) (titles : List String)
  /-- `{'url', 'error'}` — returned when `requests` raised. -/
  | failure (url : String) (error : String)
deriving DecidableEq

/-- One `SequentialCrawler.fetch_url` call, instrumented with the number of
`requests.get` calls issued and the number of `self.rate_limit()` sleeps
performed. -/
structure SeqFetch where
  outcome : SeqOutcome
  getCalls : ℕ
  sleepCalls : ℕ
deriving DecidableEq

namespace SequentialCrawler

/-- `SequentialCrawler.fetch_url`. -/
def fetch_url (backend : Backend) (url : String) : SeqFetch :=
  if BaseCrawler.validate_url url then
    match backend url with
    | .resp status text jobTitles =>
        if requestsRaises status then
          -- `raise_for_status` raised `HTTPError`, caught as `RequestException`
          { outcome := .failure url (httpErrorMsg status url), getCalls := 1, sleepCalls := 1 }
        else
          let _ := text
          { outcome := .success url status jobTitles.length jobTitles,
            getCalls := 1, sleepCalls := 1 }
    | .exn msg =>
        { outcome := .failure url msg, getCalls := 1, sleepCalls := 1 }
  else
    -- `return {}` before `rate_limit` and before any request
    { outcome := .empty, getCalls := 0, sleepCalls := 0 }

/-- `SequentialCrawler.crawl`: append `fetch_url url` for each url in order. -/
def crawl (backend : Backend) (urls : List String) : List SeqOutcome :=
  urls.map fun u => (fetch_url backend u).outcome

/-- The targets reported as successes by a sequential crawl, in order. -/
def successTargets (backend : Backend) (urls : List String) : List String :=
  (crawl backend urls).filterMap fun o =>
    match o with
    | .success u _ _ _ => some u
    | _ => none

end SequentialCrawler

/-! ## `AsyncCrawler` (src/src/crawler/async_crawler.py)

`fetch_url` enters `async with self.rate_limiter` (consuming one admission),
opens a session, and runs `for attempt in range(self.max_retries)`: each
iteration performs `session.get`, `raise_for_status`, and returns the body
text on success; `aiohttp.ClientError` and `asyncio.TimeoutError` are caught.
There is no URL validation.

The except block's first statement is `self._log_error(url, e)`.  No class in
the hierarchy defines `_log_error` (`BaseCrawler` has only `__init__`,
`fetch_url`, `crawl`, `validate_url` and `rate_limit`), so this attribute
lookup raises `AttributeError` inside the handler; the raise propagates out
of `fetch_url`, and the lines after it — the `attempt == self.max_retries - 1`
check, the return of `None`, and every further loop iteration — are
unreachable.  The loop therefore executes at most its first iteration: one
`session.get`, then either the body text or a propagating `AttributeError`.

`crawl` gathers `{'url': url, 'content': content} if content else None` per
URL (note the Python truthiness: an empty-string body is also dropped) and
filters out the `None`s; `asyncio.gather` re-raises a task's exception, so a
single failing target aborts the whole crawl.

The attributes `self.max_retries` and `self.timeout` are never set by any
constructor (settled separately below); here the loop logic is modelled with
the attribute values as explicit parameters. -/

/-- The `str` of the `AttributeError` raised by the `self._log_error(url, e)`
lookup in the crawlers' except blocks. -/
def logErrorAttrError : String := "AttributeError: _log_error"

namespace AsyncCrawler

/-- The loop of `AsyncCrawler.fetch_url`, structurally recursive on the count
`remaining` of loop iterations left (`max_retries` at entry; the loop head
`for attempt in range(self.max_retries)` has an iteration exactly when
`remaining > 0`).  Returns the loop's outcome — `.ok (some text)` for a
returned body, `.ok none` for a fall-through without iterations, `.error` for
the `AttributeError` the handler raises at `self._log_error` — and the number
of `session.get` calls issued.  Because the handler raises before the
last-attempt check, no input reaches a second iteration and the result does
not depend on the attempt index. -/
def fetchLoop (backend : Backend) (url : String) :
    ℕ → Except String (Option String) × ℕ
  | 0 => (.ok none, 0)
  | _ + 1 =>
    match backend url with
    | .resp status text _ =>
        if aiohttpRaises status then
          -- `raise_for_status` raised `ClientResponseError`, caught as
          -- `ClientError`; the handler's `self._log_error(url, e)` lookup
          -- fails and `AttributeError` propagates
          (.error logErrorAttrError, 1)
        else (.ok (some text), 1)
    | .exn _ =>
        -- caught `ClientError` / `TimeoutError`; same failing lookup
        (.error logErrorAttrError, 1)

/-- One `AsyncCrawler.fetch_url` call: loop outcome, `session.get` count, and
the number of rate-limiter admissions consumed (always 1: the `async with
self.rate_limiter` is entered before any validation or request). -/
structure Fetch where
  content : Except String (Option String)
  getCalls : ℕ
  admissions : ℕ
deriving DecidableEq

/-- `AsyncCrawler.fetch_url` (loop logic, given the attribute value
`max_retries`). -/
def fetch_url (max_retries : ℕ) (backend : Backend) (url : String) : Fetch :=
  let r := fetchLoop backend url max_retries
  { content := r.1, getCalls := r.2, admissions := 1 }

/-- The inner `fetch_with_metadata` of `AsyncCrawler.crawl`: a raised
exception propagates; a returned content yields `{'url', 'content'}` when
truthy and `None` otherwise. -/
def fetch_with_metadata (max_retries : ℕ) (backend : Backend) (u : String) :
    Except String (Option (String × String)) :=
  match (fetch_url max_retries backend u).content with
  | .error e => .error e
  | .ok content =>
      .ok (match content with
        | some c => if c = "" then none else some (u, c)
        | none => none)

/-- `AsyncCrawler.crawl`: `asyncio.gather` over one task per URL — if any
task raises, the exception propagates out of `crawl` (with several failing
tasks the temporally first exception is re-raised; the carried message is the
same for every failure, so the list-order choice made here is indifferent) —
then `None` results are filtered out. -/
def crawl (max_retries : ℕ) (backend : Backend) (urls : List String) :
    Except String (List (String × String)) :=
  match urls.mapM (fetch_with_metadata max_retries backend) with
  | .error e => .error e
  | .ok results => .ok (results.filterMap id)

/-- The targets reported as successes by an async crawl, in order; when the
crawl raises, nothing is reported. -/
def successTargets (max_retries : ℕ) (backend : Backend) (urls : List String) :
    List String :=
  match crawl max_retries backend urls with
  | .ok results => results.map Prod.fst
  | .error _ => []

end AsyncCrawler

/-! ## `ThreadedCrawler._fetch_url_thread` (src/src/crawler/threaded_crawler.py)

Same loop shape with `requests`: `for attempt in range(self.max_retries)`
around `requests.get` + `raise_for_status`, catching
`requests.RequestException`; on success it returns
`{'url': url, 'content': response.text}`.  No URL validation.  Its except
block also begins with the failing `self._log_error(url, e)` lookup, so here
too the first caught failure raises `AttributeError` and no second iteration
is reachable. -/

namespace ThreadedCrawler

/-- The loop of `ThreadedCrawler._fetch_url_thread`, structurally recursive
on the count of loop iterations left (`max_retries` at entry): loop outcome
(result dict, fall-through `None`, or the propagating `AttributeError` from
`self._log_error`) and `requests.get` count. -/
def fetchLoop (backend : Backend) (url : String) :
    ℕ → Except String (Option (String × String)) × ℕ
  | 0 => (.ok none, 0)
  | _ + 1 =>
    match backend url with
    | .resp status text _ =>
        if requestsRaises status then
          (.error logErrorAttrError, 1)
        else (.ok (some (url, text)), 1)
    | .exn _ =>
        (.error logErrorAttrError, 1)

/-- `ThreadedCrawler._fetch_url_thread` (loop logic, given the attribute
value `max_retries`): loop outcome and number of `requests.get` calls
issued. -/
def fetch_url_thread (max_retries : ℕ) (backend : Backend) (url : String) :
    Except String (Option (String × String)) × ℕ :=
  fetchLoop backend url max_retries

end ThreadedCrawler

/-! ## `ErrorHandler.retry` (src/src/utils/error_handler.py)

The decorator wraps an async operation:

    _delay = delay
    for attempt in range(max_attempts):
        try:
            return await func(*args, **kwargs)
        except exceptions as e:
            if attempt == max_attempts - 1:
                raise
            await asyncio.sleep(_delay)
            _delay *= backoff

A fall-through of the loop (only possible when `max_attempts = 0`) returns
`None` implicitly.  The operation is modelled as a function from the attempt
index to an `Except` result, where every `.error` is an exception matched by
the `exceptions` tuple.  The embedding returns the wrapper's result
(`.ok (some a)` for a returned success, `.error e` for a re-raised final
failure, `.ok none` for the implicit `None`), the number of invocations of the
inner operation, and the list of sleep durations in order. -/

namespace ErrorHandler

/-- The retry loop from attempt index `attempt` with current delay `d`. -/
def retryAux {E A : Type} (f : ℕ → Except E A) (backoff : ℚ) (max_attempts : ℕ) :
    ℕ → ℚ → Except E (Option A) × ℕ × List ℚ := fun attempt d =>
  if _h : attempt < max_attempts then
    match f attempt with
    | .ok a => (.ok (some a), 1, [])
    | .error e =>
        if attempt = max_attempts - 1 then (.error e, 1, [])
        else
          let r := retryAux f backoff max_attempts (attempt + 1) (d * backoff)
          (r.1, r.2.1 + 1, d :: r.2.2)
  else (.ok none, 0, [])
termination_by attempt => max_attempts - attempt

/-- `ErrorHandler.retry(max_attempts, delay, backoff)` applied to operation
`f`: wrapper result, invocation count, sleep durations. -/
def retry {E A : Type} (max_attempts : ℕ) (delay backoff : ℚ)
    (f : ℕ → Except E A) : Except E (Option A) × ℕ × List ℚ :=
  retryAux f backoff max_attempts 0 delay

end ErrorHandler

/-! ## `AsyncRateLimiter` (src/src/utils/rate_limiter.py)

`__init__` stores `max_rate` and `max_concurrent` and creates
`asyncio.Semaphore(max_concurrent) if max_concurrent else None` — by Python
truthiness a `max_concurrent` of `0` (like `None`) yields no semaphore.  It
performs no validation of `max_rate`; nothing in the constructor can raise
for a natural-number `max_concurrent`, so construction always succeeds.

`__aenter__` acquires the semaphore if present, then reads the event-loop
clock, computes `min_interval = 1.0 / max_rate` and, if less than
`min_interval` has elapsed since `_last_call`, sleeps for the difference;
finally it sets `_last_call` to the (re-read) clock.  `__aexit__` releases
the semaphore if present, whatever exception information it is passed. -/

namespace AsyncRateLimiter

/-- The state of one `AsyncRateLimiter` object: configuration, the optional
semaphore (its capacity and its count of currently held slots), and
`_last_call`. -/
structure State where
  max_rate : ℚ
  /-- `self._semaphore`: `some capacity` when a semaphore was created. -/
  semaphore : Option ℕ
  /-- Number of semaphore slots currently held (0 when no semaphore). -/
  in_flight : ℕ
  /-- `self._last_call`, initialized to `0`. -/
  last_call : ℚ
deriving DecidableEq

/-- `AsyncRateLimiter.__init__(max_rate, max_concurrent)`.  The result is an
`Except` so that "construction fails" is expressible; the body has no raise
path, so it always returns `.ok`. -/
def init (max_rate : ℚ) (max_concurrent : Option ℕ) : Except String State :=
  .ok { max_rate := max_rate,
        semaphore :=
          match max_concurrent with
          | some c => if c ≠ 0 then some c else none
          | none => none,
        in_flight := 0,
        last_call := 0 }

/-! ### Event-loop semantics for tasks using the limiter

The Concurrent-Single-Thread strategy runs many tasks on one event loop; each
task executes `async with rate_limiter: body`.  Code between `await` points is
atomic.  `__aenter__` has two suspension points: the semaphore acquire (only
when no slot is free) and the rate `sleep` (only when the minimum interval has
not yet elapsed); everything else, including the final `_last_call` write,
runs without yielding.  A task is therefore in one of four phases. -/

/-- Phase of one task with respect to the scoped acquisition. -/
inductive TaskPhase where
  /-- Has not started `__aenter__` (or is blocked on the semaphore). -/
  | start
  /-- Suspended in the rate `sleep`, holding a slot, due to wake at `wake`. -/
  | sleeping (wake : ℚ)
  /-- `__aenter__` completed; inside the body, holding a slot. -/
  | admitted
  /-- `__aexit__` completed; slot released. -/
  | done
deriving DecidableEq

/-- State of the event loop: the limiter object, the loop clock, the task
phases, and the recorded admission timestamps (each the value written to
`_last_call` when an `__aenter__` completed). -/
structure LoopState where
  limiter : State
  clock : ℚ
  tasks : List TaskPhase
  admissions : List ℚ
deriving DecidableEq

/-- Scheduler events.  `enter i` runs task `i`'s `__aenter__` up to its first
suspension (or to completion); `wake i` resumes task `i` from the rate sleep
once the clock has reached its wake time; `exit i raised` runs the body of
task `i` — which completes normally when `raised` is false and raises when it
is true — followed by `__aexit__`; `advance d` advances the loop clock. -/
inductive Cmd where
  | enter (i : ℕ)
  | wake (i : ℕ)
  | exit (i : ℕ) (raised : Bool)
  | advance (d : ℚ)

/-- Is a semaphore slot free (trivially so when no semaphore exists)? -/
def slotFree (s : State) : Bool :=
  match s.semaphore with
  | none => true
  | some c => s.in_flight < c

/-- Acquire a slot (no-op when no semaphore exists). -/
def acquireSlot (s : State) : State :=
  match s.semaphore with
  | none => s
  | some _ => { s with in_flight := s.in_flight + 1 }

/-- `release()`: free one slot (no-op when no semaphore exists). -/
def releaseSlot (s : State) : State :=
  match s.semaphore with
  | none => s
  | some _ => { s with in_flight := s.in_flight - 1 }

/-- One scheduler step.  Events whose preconditions do not hold leave the
state unchanged. -/
def step (s : LoopState) : Cmd → LoopState
  | .enter i =>
    match s.tasks[i]? with
    | some .start =>
        if slotFree s.limiter then
          let lim := acquireSlot s.limiter
          let min_interval := 1 / lim.max_rate
          if s.clock - lim.last_call < min_interval then
            -- suspend in `asyncio.sleep(min_interval - time_since_last_call)`
            { s with limiter := lim,
                     tasks := s.tasks.set i (.sleeping (lim.last_call + min_interval)) }
          else
            -- no sleep needed: write `_last_call` and admit atomically
            { s with limiter := { lim with last_call := s.clock },
                     tasks := s.tasks.set i .admitted,
                     admissions := s.admissions ++ [s.clock] }
        else s
    | _ => s
  | .wake i =>
    match s.tasks[i]? with
    | some (.sleeping w) =>
        if w ≤ s.clock then
          { s with limiter := { s.limiter with last_call := s.clock },
                   tasks := s.tasks.set i .admitted,
                   admissions := s.admissions ++ [s.clock] }
        else s
    | _ => s
  | .exit i _raised =>
    -- `async with` runs `__aexit__` on every exit of the body, raising or not,
    -- and `__aexit__` ignores the exception information it receives
    match s.tasks[i]? with
    | some .admitted =>
        { s with limiter := releaseSlot s.limiter,
                 tasks := s.tasks.set i .done }
    | _ => s
  | .advance d => if 0 < d then { s with clock := s.clock + d } else s

/-- Run a list of scheduler events. -/
def run (s : LoopState) (cmds : List Cmd) : LoopState :=
  cmds.foldl step s

/-- The initial loop state: a freshly constructed limiter (only the `.ok`
branch of `init` is possible), a starting clock, and `n` tasks about to
request admission. -/
def initLoop (max_rate : ℚ) (max_concurrent : Option ℕ) (clock0 : ℚ) (n : ℕ) :
    LoopState :=
  { limiter :=
      match init max_rate max_concurrent with
      | .ok st => st
      | .error _ => { max_rate := max_rate, semaphore := none, in_flight := 0, last_call := 0 },
    clock := clock0,
    tasks := List.replicate n .start,
    admissions := [] }

/-- A task phase that holds a semaphore slot. -/
def holdsSlot : TaskPhase → Bool
  | .sleeping _ => true
  | .admitted => true
  | _ => false

/-- Number of tasks whose `__aenter__` has completed without a matching
release. -/
def admittedCount (s : LoopState) : ℕ :=
  s.tasks.countP fun p => p = .admitted

end AsyncRateLimiter

/-! ## Crawler constructors and attribute reads

`BaseCrawler.__init__(urls, max_workers=5)` sets `self.urls`,
`self.max_workers` and `self.logger`; `AsyncCrawler.__init__` calls it and
additionally sets `self.rate_limiter`; `ThreadedCrawler` defines no
constructor of its own.  No constructor in the hierarchy ever assigns
`self.max_retries` or `self.timeout`, yet `AsyncCrawler.fetch_url` and
`ThreadedCrawler._fetch_url_thread` read both.  Reading a missing attribute
raises `AttributeError`. -/

/-- The attributes held by a crawler object (only those relevant here);
`none` means the attribute was never assigned. -/
structure CrawlerObj where
  urls : Option (List String) := none
  max_workers : Option ℕ := none
  loggerSet : Bool := false
  rateLimiterSet : Bool := false
  max_retries : Option ℕ := none
  timeout : Option ℚ := none
deriving DecidableEq

namespace BaseCrawler

/-- `BaseCrawler.__init__(urls, max_workers=5)`. -/
def init (urls : List String) (max_workers : ℕ := 5) : CrawlerObj :=
  { urls := some urls, max_workers := some max_workers, loggerSet := true }

end BaseCrawler

namespace AsyncCrawler

/-- `AsyncCrawler.__init__`: `super().__init__(...)` then
`self.rate_limiter = AsyncRateLimiter(max_rate=10)`. -/
def init (urls : List String) (max_workers : ℕ := 5) : CrawlerObj :=
  { BaseCrawler.init urls max_workers with rateLimiterSet := true }

/-- Outcome of a Python-level call to `AsyncCrawler.fetch_url` on object `o`,
with attribute-read semantics: either a raised exception (`.error msg`) or the
returned value, paired with the number of `session.get` calls issued.  The
rate limiter is entered and the session opened before the loop head
`for attempt in range(self.max_retries)` reads `self.max_retries`; the first
loop iteration reads `self.timeout` (to build `aiohttp.ClientTimeout`) before
issuing `session.get`. -/
def fetch_url_py (o : CrawlerObj) (backend : Backend) (url : String) :
    Except String (Option String) × ℕ :=
  match o.max_retries with
  | none => (.error "AttributeError: max_retries", 0)
  | some n =>
      if n = 0 then (.ok none, 0)
      else
        match o.timeout with
        | none => (.error "AttributeError: timeout", 0)
        | some _ => fetchLoop backend url n

end AsyncCrawler

namespace ThreadedCrawler

/-- `ThreadedCrawler` inherits `BaseCrawler.__init__` unchanged. -/
def init (urls : List String) (max_workers : ℕ := 5) : CrawlerObj :=
  BaseCrawler.init urls max_workers

/-- Outcome of a Python-level call to `ThreadedCrawler._fetch_url_thread` on
object `o`, with attribute-read semantics (the loop head reads
`self.max_retries`; each iteration reads `self.timeout` before
`requests.get`). -/
def fetch_url_thread_py (o : CrawlerObj) (backend : Backend) (url : String) :
    Except String (Option (String × String)) × ℕ :=
  match o.max_retries with
  | none => (.error "AttributeError: max_retries", 0)
  | some n =>
      if n = 0 then (.ok none, 0)
      else
        match o.timeout with
        | none => (.error "AttributeError: timeout", 0)
        | some _ => fetchLoop backend url n

end ThreadedCrawler

/-! ## Concrete fixtures used by scenario theorems and witnesses -/

/-- A backend on which every request succeeds. -/
def alwaysOkBackend : Backend := fun _ => .resp 200 "body" ["t1"]

/-- A backend on which every request yields a 404 client-error response. -/
def notFoundBackend : Backend := fun _ => .resp 404 "missing" []

/-- The spec's validation scenario input. -/
def scenarioUrls : List String :=
  ["https://a.test/x", "not a url", "https://a.test/y"]

/-- An operation that fails on its first two invocations and then succeeds
(the spec's retry scenario). -/
def failsTwice : ℕ → Except String String := fun i =>
  if i < 2 then Except.error "timeout" else Except.ok "T-body"

/-- An operation that fails on every invocation. -/
def alwaysFails : ℕ → Except String String := fun _ => Except.error "timeout"

/-- The scheduler trace exhibiting the `_last_call` read-then-write race:
three tasks request admission at clock 10 (the first is admitted at once, the
other two read the same `_last_call` and sleep), the clock advances past the
shared wake time, and both sleepers complete `__aenter__`. -/
def raceTrace : List AsyncRateLimiter.Cmd :=
  [.enter 0, .enter 1, .enter 2, .advance 1, .wake 1, .wake 2]

/-! ## Helper lemmas -/

theorem retryAux_ok_of_failures {E A : Type} (f : ℕ → Except E A) (b : ℚ) (m : ℕ) :
    ∀ (j t : ℕ) (d : ℚ) (a : A), t + j < m →
      (∀ i, t ≤ i → i < t + j → ∃ e, f i = Except.error e) →
      f (t + j) = Except.ok a →
      ErrorHandler.retryAux f b m t d =
        (Except.ok (some a), j + 1, (List.range j).map fun i => d * b ^ i) := by
  intro j
  induction j with
  | zero =>
    intro t d a h hf hs
    rw [ErrorHandler.retryAux, dif_pos (by omega : t < m)]
    rw [Nat.add_zero] at hs
    rw [hs]
    rfl
  | succ j ih =>
    intro t d a h hf hs
    obtain ⟨e, he⟩ := hf t le_rfl (by omega)
    rw [ErrorHandler.retryAux, dif_pos (by omega : t < m), he]
    dsimp only
    rw [if_neg (by omega : ¬ t = m - 1)]
    rw [ih (t + 1) (d * b) a (by omega)
      (fun i hi hlt => hf i (by omega) (by omega))
      (by rw [show t + 1 + j = t + (j + 1) by omega]; exact hs)]
    refine Prod.ext rfl (Prod.ext rfl ?_)
    show d :: (List.range j).map (fun i => d * b * b ^ i) =
      (List.range (j + 1)).map fun i => d * b ^ i
    rw [List.range_succ_eq_map, List.map_cons, List.map_map]
    simp only [pow_zero, mul_one]
    congr 1
    refine List.map_congr_left fun i _ => ?_
    show d * b * b ^ i = d * b ^ (i + 1)
    ring

theorem retryAux_error_of_allFail {E A : Type} (f : ℕ → Except E A) (b : ℚ) (m : ℕ)
    (hf : ∀ i, ∃ e, f i = Except.error e) :
    ∀ (u t : ℕ) (d : ℚ), m - t ≤ u → t < m →
      (∃ e, (ErrorHandler.retryAux f b m t d).1 = Except.error e) ∧
      (ErrorHandler.retryAux f b m t d).2.1 = m - t := by
  intro u
  induction u with
  | zero => intro t d hu ht; omega
  | succ u ih =>
    intro t d hu ht
    obtain ⟨e, he⟩ := hf t
    rw [ErrorHandler.retryAux, dif_pos ht, he]
    dsimp only
    by_cases hlast : t = m - 1
    · rw [if_pos hlast]
      refine ⟨⟨e, rfl⟩, ?_⟩
      show (1 : ℕ) = m - t
      omega
    · rw [if_neg hlast]
      obtain ⟨⟨e2, he2⟩, hc⟩ := ih (t + 1) (d * b) (by omega) (by omega)
      refine ⟨⟨e2, he2⟩, ?_⟩
      show (ErrorHandler.retryAux f b m (t + 1) (d * b)).2.1 + 1 = m - t
      rw [hc]
      omega

/-- C2: with `max_attempts ≥ 1`, an operation failing `k < max_attempts`
times with retryable exceptions and then succeeding is invoked exactly `k+1`
times and its success is returned; an operation that always fails with
retryable exceptions is invoked exactly `max_attempts` times (and the final
failure is re-raised). -/
theorem ErrorHandler.retry_invocation_counts {E A : Type} (max_attempts k : ℕ)
    (delay backoff : ℚ) (f g : ℕ → Except E A) (a : A)
    (hmax : 1 ≤ max_attempts) (hk : k < max_attempts)
    (hfail : ∀ i, i < k → ∃ e, f i = Except.error e)
    (hsucc : f k = Except.ok a)
    (hg : ∀ i, ∃ e, g i = Except.error e) :
    ((ErrorHandler.retry max_attempts delay backoff f).1 = Except.ok (some a) ∧
     (ErrorHandler.retry max_attempts delay backoff f).2.1 = k + 1) ∧
    ((∃ e, (ErrorHandler.retry max_attempts delay backoff g).1 = Except.error e) ∧
     (ErrorHandler.retry max_attempts delay backoff g).2.1 = max_attempts) := by
  have h1 := retryAux_ok_of_failures f backoff max_attempts k 0 delay a
    (by omega) (fun i _ hi => hfail i (by omega)) (by simpa using hsucc)
  have h2 := retryAux_error_of_allFail g backoff max_attempts hg max_attempts 0 delay
    (by omega) (by omega)
  refine ⟨⟨?_, ?_⟩, ⟨?_, ?_⟩⟩
  · rw [ErrorHandler.retry, h1]
  · rw [ErrorHandler.retry, h1]
  · exact h2.1
  · rw [ErrorHandler.retry, h2.2]; omega

theorem retry_invocation_counts_witness :
    ((ErrorHandler.retry 3 1 2 failsTwice).1 = Except.ok (some "T-body") ∧
     (ErrorHandler.retry 3 1 2 failsTwice).2.1 = 2 + 1) ∧
    ((∃ e, (ErrorHandler.retry 3 1 2 alwaysFails).1 = Except.error e) ∧
     (ErrorHandler.retry 3 1 2 alwaysFails).2.1 = 3) :=
  ErrorHandler.retry_invocation_counts 3 2 1 2 failsTwice alwaysFails "T-body"
    (by decide) (by decide)
    (fun i hi => ⟨"timeout", by simp [failsTwice, hi]⟩)
    (by simp [failsTwice])
    (fun i => ⟨"timeout", rfl⟩)

/-- C7: the wait after the i-th retryable failure (1-indexed) is
`delay * backoff^(i-1)`: for an operation failing `k` times then succeeding,
the recorded sleeps are `[delay, delay*backoff, ..., delay*backoff^(k-1)]`
and the outcome is the success. -/
theorem ErrorHandler.retry_backoff_waits {E A : Type} (max_attempts k : ℕ)
    (delay backoff : ℚ) (f : ℕ → Except E A) (a : A) (hk : k < max_attempts)
    (hfail : ∀ i, i < k → ∃ e, f i = Except.error e)
    (hsucc : f k = Except.ok a) :
    (ErrorHandler.retry max_attempts delay backoff f).2.2 =
      (List.range k).map (fun i => delay * backoff ^ i) ∧
    (ErrorHandler.retry max_attempts delay backoff f).1 = Except.ok (some a) := by
  have h1 := retryAux_ok_of_failures f backoff max_attempts k 0 delay a
    (by omega) (fun i _ hi => hfail i (by omega)) (by simpa using hsucc)
  rw [ErrorHandler.retry, h1]
  exact ⟨rfl, rfl⟩

theorem retry_backoff_waits_witness :
    (ErrorHandler.retry 3 1 2 failsTwice).2.2 = [1, 2] ∧
    (ErrorHandler.retry 3 1 2 failsTwice).1 = Except.ok (some "T-body") := by
  have h := ErrorHandler.retry_backoff_waits 3 2 1 2 failsTwice "T-body" (by decide)
    (fun i hi => ⟨"timeout", by simp [failsTwice, hi]⟩)
    (by simp [failsTwice])
  refine ⟨?_, h.2⟩
  rw [h.1]
  norm_num [List.range_succ]

/-- C9 counterexample: constructing an `AsyncRateLimiter` with
`max_rate = -1 ≤ 0` does not fail — `__init__` performs no validation. -/
theorem rate_limiter_init_no_validation :
    AsyncRateLimiter.init (-1) none =
      Except.ok { max_rate := -1, semaphore := none, in_flight := 0, last_call := 0 } :=
  rfl

/-- C9 amended: construction always succeeds whatever `max_rate` is (no
validation exists); with no concurrency cap configured no semaphore is
created, so `acquire` is never gated on slots — only the timing gate
applies. -/
theorem rate_limiter_init_total (r : ℚ) (mc : Option ℕ) :
    (AsyncRateLimiter.init r mc).isOk = true ∧
    AsyncRateLimiter.init r none =
      Except.ok { max_rate := r, semaphore := none, in_flight := 0, last_call := 0 } ∧
    AsyncRateLimiter.slotFree
      { max_rate := r, semaphore := none, in_flight := 0, last_call := 0 } = true :=
  ⟨rfl, rfl, rfl⟩

/-- C10: objects built by the `AsyncCrawler` and `ThreadedCrawler`
constructors never carry `max_retries` or `timeout`, so every call of
`AsyncCrawler.fetch_url` / `ThreadedCrawler._fetch_url_thread` raises
`AttributeError` at the loop head, before any request is issued. -/
theorem crawler_fetch_attribute_error (urls : List String) (mw : ℕ)
    (backend : Backend) (url : String) :
    AsyncCrawler.fetch_url_py (AsyncCrawler.init urls mw) backend url =
      (Except.error "AttributeError: max_retries", 0) ∧
    ThreadedCrawler.fetch_url_thread_py (ThreadedCrawler.init urls mw) backend url =
      (Except.error "AttributeError: max_retries", 0) :=
  ⟨rfl, rfl⟩

/-- C8 counterexample: the sequential crawl of the single malformed target
`"not a url"` produces the empty dict `{}` as its outcome — an element that
carries neither the target nor an error, contradicting the claim that every
element, including the one for a malformed target, is fully populated. -/
theorem seq_crawl_empty_outcome :
    SequentialCrawler.crawl alwaysOkBackend ["not a url"] = [SeqOutcome.empty] := by
  decide

/-- C8 amended: every element of a sequential crawl corresponds to its input
target in order; for a target passing URL validation the element is fully
populated — a success carrying the target, status and body-derived fields, or
a failure carrying the target and the raw error — while for a malformed
target the element is the empty dict. -/
theorem seq_crawl_outcome_shape (backend : Backend) (urls : List String) (i : ℕ)
    (hi : i < urls.length) :
    ∃ u o, urls[i]? = some u ∧
      (SequentialCrawler.crawl backend urls)[i]? = some o ∧
      ((BaseCrawler.validate_url u = true ∧
        ((∃ s jc ts, o = SeqOutcome.success u s jc ts) ∨
         (∃ e, o = SeqOutcome.failure u e))) ∨
       (BaseCrawler.validate_url u = false ∧ o = SeqOutcome.empty)) := by
  refine ⟨urls[i], (SequentialCrawler.fetch_url backend urls[i]).outcome,
    List.getElem?_eq_getElem hi, ?_, ?_⟩
  · rw [SequentialCrawler.crawl, List.getElem?_map, List.getElem?_eq_getElem hi]
    rfl
  · by_cases hv : BaseCrawler.validate_url urls[i]
    · refine Or.inl ⟨hv, ?_⟩
      rw [SequentialCrawler.fetch_url, if_pos hv]
      cases hb : backend urls[i] with
      | resp status text jobTitles =>
        dsimp only
        by_cases hr : requestsRaises status
        · rw [if_pos hr]
          exact Or.inr ⟨httpErrorMsg status urls[i], rfl⟩
        · rw [if_neg hr]
          exact Or.inl ⟨status, jobTitles.length, jobTitles, rfl⟩
      | exn msg =>
        dsimp only
        exact Or.inr ⟨msg, rfl⟩
    · refine Or.inr ⟨by simpa using hv, ?_⟩
      rw [SequentialCrawler.fetch_url, if_neg hv]

theorem seq_crawl_outcome_shape_witness :
    (0 < (["https://a.test/x"] : List String).length) ∧
    (∃ u o, (["https://a.test/x"] : List String)[0]? = some u ∧
      (SequentialCrawler.crawl alwaysOkBackend ["https://a.test/x"])[0]? = some o ∧
      ((BaseCrawler.validate_url u = true ∧
        ((∃ s jc ts, o = SeqOutcome.success u s jc ts) ∨
         (∃ e, o = SeqOutcome.failure u e))) ∨
       (BaseCrawler.validate_url u = false ∧ o = SeqOutcome.empty))) :=
  ⟨by decide, seq_crawl_outcome_shape alwaysOkBackend ["https://a.test/x"] 0 (by decide)⟩

/-- C3 counterexample: under the Concurrent strategy the malformed target
`"not a url"` is not rejected — `AsyncCrawler.fetch_url` performs no
validation, consumes a rate-limiter admission and issues a network attempt
for it, and the scenario input yields three successes, not two. -/
theorem async_attempts_malformed_target :
    BaseCrawler.validate_url "not a url" = false ∧
    (AsyncCrawler.fetch_url 3 alwaysOkBackend "not a url").getCalls = 1 ∧
    (AsyncCrawler.fetch_url 3 alwaysOkBackend "not a url").admissions = 1 ∧
    AsyncCrawler.crawl 3 alwaysOkBackend scenarioUrls =
      .ok [("https://a.test/x", "body"), ("not a url", "body"), ("https://a.test/y", "body")] := by
  decide

/-- C4 counterexample: with an always-succeeding backend on the input
`["not a url"]`, the Sequential strategy reports no success while the
Concurrent strategy reports the malformed target as a success — the two
success sets differ. -/
theorem strategy_success_sets_differ :
    SequentialCrawler.successTargets alwaysOkBackend ["not a url"] = [] ∧
    AsyncCrawler.successTargets 3 alwaysOkBackend ["not a url"] = ["not a url"] := by
  decide

theorem AsyncCrawler.fetchLoop_ok (backend : Backend) (url : String)
    (s : ℕ) (t : String) (j : List String) (hb : backend url = HttpResult.resp s t j)
    (hs : aiohttpRaises s = false) (rem : ℕ) :
    AsyncCrawler.fetchLoop backend url (rem + 1) = (.ok (some t), 1) := by
  simp only [AsyncCrawler.fetchLoop]
  rw [hb]
  dsimp only
  rw [hs]
  rfl

theorem AsyncCrawler.fetchLoop_fail (backend : Backend) (url : String)
    (hfail : match backend url with
      | HttpResult.resp s _ _ => aiohttpRaises s = true
      | HttpResult.exn _ => True) (rem : ℕ) :
    AsyncCrawler.fetchLoop backend url (rem + 1) = (.error logErrorAttrError, 1) := by
  simp only [AsyncCrawler.fetchLoop]
  cases hb : backend url with
  | resp s t j =>
    rw [hb] at hfail
    dsimp only at hfail ⊢
    rw [hfail, if_pos rfl]
  | exn m => rfl

theorem ThreadedCrawler.fetchLoopThread_fail (backend : Backend) (url : String)
    (hfail : match backend url with
      | HttpResult.resp s _ _ => requestsRaises s = true
      | HttpResult.exn _ => True) (rem : ℕ) :
    ThreadedCrawler.fetchLoop backend url (rem + 1) = (.error logErrorAttrError, 1) := by
  simp only [ThreadedCrawler.fetchLoop]
  cases hb : backend url with
  | resp s t j =>
    rw [hb] at hfail
    dsimp only at hfail ⊢
    rw [hfail, if_pos rfl]
  | exn m => rfl

theorem SequentialCrawler.fetch_url_ok (backend : Backend) (url : String)
    (s : ℕ) (t : String) (j : List String) (hb : backend url = HttpResult.resp s t j)
    (hv : BaseCrawler.validate_url url = true) (hs : requestsRaises s = false) :
    SequentialCrawler.fetch_url backend url =
      { outcome := SeqOutcome.success url s j.length j, getCalls := 1, sleepCalls := 1 } := by
  rw [SequentialCrawler.fetch_url, if_pos hv, hb]
  dsimp only
  rw [hs]
  rfl

theorem AsyncCrawler.fetchLoop_pos (backend : Backend) (url : String) (rem : ℕ) :
    1 ≤ (AsyncCrawler.fetchLoop backend url (rem + 1)).2 := by
  simp only [AsyncCrawler.fetchLoop]
  cases backend url with
  | resp s t j =>
    dsimp only
    by_cases hr : aiohttpRaises s
    · rw [hr, if_pos rfl]
    · rw [Bool.not_eq_true] at hr
      rw [hr, if_neg (by simp)]
  | exn m => exact le_refl 1

/-- C3 amended: only the Sequential strategy validates targets — a malformed
target is rejected there before any network attempt and without consuming its
sleep-based limiter, and the scenario input yields exactly the two valid
successes; the Concurrent strategy performs no validation, consuming one
rate-limiter admission and at least one network attempt for every target,
malformed or not. -/
theorem malformed_rejected_by_sequential_only (backend : Backend) (url : String)
    (mr : ℕ) (hmr : 1 ≤ mr) (hbad : BaseCrawler.validate_url url = false) :
    SequentialCrawler.fetch_url backend url =
      { outcome := SeqOutcome.empty, getCalls := 0, sleepCalls := 0 } ∧
    (AsyncCrawler.fetch_url mr backend url).admissions = 1 ∧
    1 ≤ (AsyncCrawler.fetch_url mr backend url).getCalls ∧
    SequentialCrawler.crawl alwaysOkBackend scenarioUrls =
      [SeqOutcome.success "https://a.test/x" 200 1 ["t1"],
       SeqOutcome.empty,
       SeqOutcome.success "https://a.test/y" 200 1 ["t1"]] := by
  refine ⟨?_, rfl, ?_, by decide⟩
  · rw [SequentialCrawler.fetch_url, if_neg (by simp [hbad])]
  · show 1 ≤ (AsyncCrawler.fetchLoop backend url mr).2
    obtain ⟨rem, hrem⟩ : ∃ rem, mr = rem + 1 := ⟨mr - 1, by omega⟩
    rw [hrem]
    exact AsyncCrawler.fetchLoop_pos backend url rem

theorem malformed_rejected_by_sequential_only_witness :
    (1 ≤ 3 ∧ BaseCrawler.validate_url "not a url" = false) ∧
    (SequentialCrawler.fetch_url alwaysOkBackend "not a url" =
      { outcome := SeqOutcome.empty, getCalls := 0, sleepCalls := 0 } ∧
    (AsyncCrawler.fetch_url 3 alwaysOkBackend "not a url").admissions = 1 ∧
    1 ≤ (AsyncCrawler.fetch_url 3 alwaysOkBackend "not a url").getCalls ∧
    SequentialCrawler.crawl alwaysOkBackend scenarioUrls =
      [SeqOutcome.success "https://a.test/x" 200 1 ["t1"],
       SeqOutcome.empty,
       SeqOutcome.success "https://a.test/y" 200 1 ["t1"]]) :=
  ⟨⟨by decide, by decide⟩,
   malformed_rejected_by_sequential_only alwaysOkBackend "not a url" 3
     (by decide) (by decide)⟩

/-- C5: a target answered by a deterministic 4xx-class response is not
retried by the Concurrent or Worker-Pool strategies even when retry attempts
remain (any `max_retries ≥ 1`): exactly one request is issued, and the
failure is terminal — the except handler itself raises (`self._log_error`
does not exist anywhere in the hierarchy), the `AttributeError` propagates
out of the fetch, and the concurrent crawl of that target aborts with it
rather than retrying. -/
theorem terminal_failure_single_request (mr : ℕ) (backend : Backend)
    (url : String) (s : ℕ) (t : String) (j : List String)
    (hmr : 1 ≤ mr) (hb : backend url = HttpResult.resp s t j)
    (h4 : 400 ≤ s) (h6 : s < 600) :
    AsyncCrawler.fetch_url mr backend url =
      { content := .error logErrorAttrError, getCalls := 1, admissions := 1 } ∧
    ThreadedCrawler.fetch_url_thread mr backend url = (.error logErrorAttrError, 1) ∧
    AsyncCrawler.crawl mr backend [url] = .error logErrorAttrError := by
  obtain ⟨rem, hrem⟩ : ∃ rem, mr = rem + 1 := ⟨mr - 1, by omega⟩
  have har : aiohttpRaises s = true := by simpa [aiohttpRaises] using h4
  have hrr : requestsRaises s = true := by
    simp only [requestsRaises, Bool.and_eq_true, decide_eq_true_eq]
    omega
  have ha : AsyncCrawler.fetchLoop backend url mr = (.error logErrorAttrError, 1) := by
    rw [hrem]
    exact AsyncCrawler.fetchLoop_fail backend url (by rw [hb]; exact har) rem
  have ht : ThreadedCrawler.fetchLoop backend url mr = (.error logErrorAttrError, 1) := by
    rw [hrem]
    exact ThreadedCrawler.fetchLoopThread_fail backend url (by rw [hb]; exact hrr) rem
  have hcontent : (AsyncCrawler.fetch_url mr backend url).content =
      Except.error logErrorAttrError := by
    show (AsyncCrawler.fetchLoop backend url mr).1 = _
    rw [ha]
  refine ⟨?_, ?_, ?_⟩
  · rw [AsyncCrawler.fetch_url, ha]
  · rw [ThreadedCrawler.fetch_url_thread, ht]
  · have hm : AsyncCrawler.fetch_with_metadata mr backend url =
        Except.error logErrorAttrError := by
      rw [AsyncCrawler.fetch_with_metadata, hcontent]
    have hmap : [url].mapM (AsyncCrawler.fetch_with_metadata mr backend) =
        Except.error logErrorAttrError := by
      rw [List.mapM_cons, hm]
      rfl
    rw [AsyncCrawler.crawl, hmap]

theorem terminal_failure_single_request_witness :
    (1 ≤ 3 ∧ notFoundBackend "https://a.test/x" = HttpResult.resp 404 "missing" [] ∧
     400 ≤ 404 ∧ 404 < 600) ∧
    (AsyncCrawler.fetch_url 3 notFoundBackend "https://a.test/x" =
      { content := .error logErrorAttrError, getCalls := 1, admissions := 1 } ∧
     ThreadedCrawler.fetch_url_thread 3 notFoundBackend "https://a.test/x" =
       (.error logErrorAttrError, 1) ∧
     AsyncCrawler.crawl 3 notFoundBackend ["https://a.test/x"] =
       .error logErrorAttrError) :=
  ⟨⟨by decide, rfl, by decide, by decide⟩,
   terminal_failure_single_request 3 notFoundBackend "https://a.test/x" 404 "missing" []
     (by decide) rfl (by decide) (by decide)⟩

theorem SequentialCrawler.fetch_url_exn (backend : Backend) (u : String) (m : String)
    (hv : BaseCrawler.validate_url u = true) (hb : backend u = HttpResult.exn m) :
    SequentialCrawler.fetch_url backend u =
      { outcome := SeqOutcome.failure u m, getCalls := 1, sleepCalls := 1 } := by
  rw [SequentialCrawler.fetch_url, if_pos hv, hb]

theorem SequentialCrawler.fetch_url_raises (backend : Backend) (u : String)
    (s : ℕ) (t : String) (j : List String)
    (hv : BaseCrawler.validate_url u = true) (hb : backend u = HttpResult.resp s t j)
    (hr : requestsRaises s = true) :
    SequentialCrawler.fetch_url backend u =
      { outcome := SeqOutcome.failure u (httpErrorMsg s u), getCalls := 1, sleepCalls := 1 } := by
  rw [SequentialCrawler.fetch_url, if_pos hv, hb]
  dsimp only
  rw [hr]
  rfl

theorem AsyncCrawler.fetch_with_metadata_ok (mr : ℕ) (backend : Backend)
    (u : String) (s : ℕ) (t : String) (j : List String) (hmr : 1 ≤ mr)
    (hb : backend u = HttpResult.resp s t j) (hs : s < 400) (ht : t ≠ "") :
    AsyncCrawler.fetch_with_metadata mr backend u = Except.ok (some (u, t)) := by
  obtain ⟨rem, hrem⟩ : ∃ rem, mr = rem + 1 := ⟨mr - 1, by omega⟩
  have hc : (AsyncCrawler.fetch_url mr backend u).content = Except.ok (some t) := by
    show (AsyncCrawler.fetchLoop backend u mr).1 = _
    rw [hrem, AsyncCrawler.fetchLoop_ok backend u s t j hb
      (by simp only [aiohttpRaises, decide_eq_false_iff_not]; omega) rem]
  rw [AsyncCrawler.fetch_with_metadata, hc]
  dsimp only
  rw [if_neg (by simpa using ht)]

theorem AsyncCrawler.crawl_targets (mr : ℕ) (backend : Backend) (hmr : 1 ≤ mr) :
    ∀ urls : List String,
      (∀ u ∈ urls, match backend u with
        | HttpResult.resp s t _ => s < 400 ∧ t ≠ ""
        | HttpResult.exn _ => False) →
      ∃ l, AsyncCrawler.crawl mr backend urls = Except.ok l ∧
        l.map Prod.fst = urls := by
  intro urls
  induction urls with
  | nil => intro _; exact ⟨[], rfl, rfl⟩
  | cons u us ih =>
    intro hok
    have hu := hok u (List.mem_cons_self u us)
    obtain ⟨l, hl, hmap⟩ := ih (fun v hv => hok v (List.mem_cons_of_mem u hv))
    rw [AsyncCrawler.crawl] at hl
    cases hm : us.mapM (AsyncCrawler.fetch_with_metadata mr backend) with
    | error e =>
      rw [hm] at hl
      exact absurd hl (by simp)
    | ok results =>
      rw [hm] at hl
      have hres : results.filterMap id = l := by simpa using hl
      cases hbu : backend u with
      | exn m =>
        rw [hbu] at hu
        exact hu.elim
      | resp s t j =>
        rw [hbu] at hu
        obtain ⟨hs, htne⟩ := hu
        have hwm := AsyncCrawler.fetch_with_metadata_ok mr backend u s t j hmr hbu hs htne
        refine ⟨(u, t) :: l, ?_, ?_⟩
        · rw [AsyncCrawler.crawl, List.mapM_cons, hwm, hm]
          show Except.ok ((some (u, t) :: results).filterMap id) =
            Except.ok ((u, t) :: l)
          rw [List.filterMap_cons]
          dsimp only [id]
          rw [hres]
        · rw [List.map_cons, hmap]

theorem SequentialCrawler.successTargets_all (backend : Backend) :
    ∀ urls : List String,
      (∀ u ∈ urls, BaseCrawler.validate_url u = true) →
      (∀ u ∈ urls, match backend u with
        | HttpResult.resp s t _ => s < 400 ∧ t ≠ ""
        | HttpResult.exn _ => False) →
      SequentialCrawler.successTargets backend urls = urls := by
  intro urls
  induction urls with
  | nil => intro _ _; rfl
  | cons u us ih =>
    intro hvalid hok
    have hvu := hvalid u (List.mem_cons_self u us)
    have hu := hok u (List.mem_cons_self u us)
    have ihh := ih (fun v hv => hvalid v (List.mem_cons_of_mem u hv))
      (fun v hv => hok v (List.mem_cons_of_mem u hv))
    cases hbu : backend u with
    | exn m =>
      rw [hbu] at hu
      exact hu.elim
    | resp s t j =>
      rw [hbu] at hu
      obtain ⟨hs, _⟩ := hu
      have hseq := SequentialCrawler.fetch_url_ok backend u s t j hbu hvu
        (by have h4 : ¬ 400 ≤ s := by omega
            simp [requestsRaises, h4])
      rw [SequentialCrawler.successTargets, SequentialCrawler.crawl, List.map_cons,
        List.filterMap_cons, hseq]
      dsimp only
      exact congrArg (List.cons u) ihh

/-- C4 amended: over targets that all pass URL validation, against a fixed
deterministic backend on which every request succeeds (a response with status
< 400 and a nonempty body), the Sequential and Concurrent strategies report
exactly the same successful targets — all of them, in input order.  Outside
these hypotheses the strategies diverge: the Concurrent strategy skips
validation (a malformed target the backend accepts appears only in its set),
and on any caught failure — timeout, connection error, or a 4xx/5xx status —
the missing `_log_error` raises `AttributeError`, which aborts the whole
concurrent crawl, while the Sequential strategy still reports a structured
outcome per target. -/
theorem seq_async_success_sets_agree (mr : ℕ) (backend : Backend)
    (urls : List String) (hmr : 1 ≤ mr)
    (hvalid : ∀ u ∈ urls, BaseCrawler.validate_url u = true)
    (hok : ∀ u ∈ urls, match backend u with
      | HttpResult.resp s t _ => s < 400 ∧ t ≠ ""
      | HttpResult.exn _ => False) :
    SequentialCrawler.successTargets backend urls =
      AsyncCrawler.successTargets mr backend urls := by
  obtain ⟨l, hl, hmap⟩ := AsyncCrawler.crawl_targets mr backend hmr urls hok
  rw [AsyncCrawler.successTargets, hl]
  dsimp only
  rw [hmap]
  exact SequentialCrawler.successTargets_all backend urls hvalid hok

theorem seq_async_success_sets_agree_witness :
    (∀ u ∈ (["https://a.test/x"] : List String), BaseCrawler.validate_url u = true) ∧
    SequentialCrawler.successTargets alwaysOkBackend ["https://a.test/x"] =
      AsyncCrawler.successTargets 1 alwaysOkBackend ["https://a.test/x"] :=
  ⟨by decide,
   seq_async_success_sets_agree 1 alwaysOkBackend ["https://a.test/x"] (by decide)
     (by decide) (fun u _ => ⟨by norm_num, by decide⟩)⟩

set_option maxHeartbeats 1000000 in
theorem rate_limiter_race_coincident_admissions :
    (AsyncRateLimiter.run (AsyncRateLimiter.initLoop 1 none 10 3) raceTrace).admissions =
      [10, 11, 11] ∧
    ¬ List.Chain' (fun a b : ℚ => 1 / 1 ≤ b - a)
        (AsyncRateLimiter.run (AsyncRateLimiter.initLoop 1 none 10 3) raceTrace).admissions := by
  have hrun : (AsyncRateLimiter.run (AsyncRateLimiter.initLoop 1 none 10 3) raceTrace).admissions
      = [10, 11, 11] := by
    simp only [AsyncRateLimiter.run, raceTrace, AsyncRateLimiter.initLoop, AsyncRateLimiter.init,
      AsyncRateLimiter.step, AsyncRateLimiter.slotFree, AsyncRateLimiter.acquireSlot,
      List.foldl, List.replicate]
    norm_num
  refine ⟨hrun, ?_⟩
  rw [hrun]
  simp only [List.chain'_cons, List.chain'_singleton, and_true, not_and]
  intro h
  norm_num



theorem countP_set_add {α : Type} (p : α → Bool) (a : α) :
    ∀ (l : List α) (i : ℕ) (x : α), l[i]? = some x →
      (l.set i a).countP p + (if p x then 1 else 0) =
        l.countP p + (if p a then 1 else 0) := by
  intro l
  induction l with
  | nil => intro i x h; simp at h
  | cons y ys ih =>
    intro i x h
    cases i with
    | zero =>
      simp only [List.getElem?_cons_zero, Option.some.injEq] at h
      subst h
      simp only [List.set_cons_zero, List.countP_cons]
      omega
    | succ n =>
      simp only [List.getElem?_cons_succ] at h
      simp only [List.set_cons_succ, List.countP_cons]
      have := ih n x h
      omega

namespace AsyncRateLimiter

theorem countP_holding_pos (l : List TaskPhase) (i : ℕ)
    (h : l[i]? = some .admitted) : 1 ≤ l.countP holdsSlot := by
  have hm : TaskPhase.admitted ∈ l := by
    have hlt : i < l.length := by
      by_contra hge
      rw [List.getElem?_eq_none (by omega)] at h
      exact Option.noConfusion h
    have heq : l[i] = TaskPhase.admitted := by
      rw [List.getElem?_eq_getElem hlt] at h
      exact Option.some.inj h
    rw [← heq]
    exact List.getElem_mem hlt
  have : 0 < l.countP holdsSlot := List.countP_pos_iff.mpr ⟨_, hm, rfl⟩
  omega

theorem acquireSlot_some (st : State) (c : ℕ) (h : st.semaphore = some c) :
    acquireSlot st = { max_rate := st.max_rate, semaphore := some c,
                       in_flight := st.in_flight + 1, last_call := st.last_call } := by
  rw [acquireSlot, h]

theorem releaseSlot_some (st : State) (c : ℕ) (h : st.semaphore = some c) :
    releaseSlot st = { max_rate := st.max_rate, semaphore := some c,
                       in_flight := st.in_flight - 1, last_call := st.last_call } := by
  rw [releaseSlot, h]

theorem step_preserves_inv (c : ℕ) (s : LoopState) (cmd : Cmd)
    (hsem : s.limiter.semaphore = some c)
    (hcount : s.limiter.in_flight = s.tasks.countP holdsSlot)
    (hcap : s.limiter.in_flight ≤ c) :
    (step s cmd).limiter.semaphore = some c ∧
    (step s cmd).limiter.in_flight = (step s cmd).tasks.countP holdsSlot ∧
    (step s cmd).limiter.in_flight ≤ c := by
  cases cmd with
  | advance d =>
    simp only [step]
    by_cases hd : 0 < d
    · rw [if_pos hd]; exact ⟨hsem, hcount, hcap⟩
    · rw [if_neg hd]; exact ⟨hsem, hcount, hcap⟩
  | enter i =>
    simp only [step]
    cases hti : s.tasks[i]? with
    | none => exact ⟨hsem, hcount, hcap⟩
    | some ph =>
      cases ph with
      | sleeping w => exact ⟨hsem, hcount, hcap⟩
      | admitted => exact ⟨hsem, hcount, hcap⟩
      | done => exact ⟨hsem, hcount, hcap⟩
      | start =>
        dsimp only
        by_cases hfree : slotFree s.limiter = true
        · rw [if_pos hfree, acquireSlot_some s.limiter c hsem]
          have hflt : s.limiter.in_flight < c := by
            rw [slotFree, hsem] at hfree
            simpa using hfree
          have hset : ∀ ph2 : TaskPhase, holdsSlot ph2 = true →
              (s.tasks.set i ph2).countP holdsSlot =
                s.tasks.countP holdsSlot + 1 := by
            intro ph2 hph2
            have := countP_set_add holdsSlot ph2 s.tasks i .start hti
            rw [hph2] at this
            norm_num [holdsSlot] at this
            omega
          by_cases hslp : s.clock - s.limiter.last_call < 1 / s.limiter.max_rate
          · rw [if_pos hslp]
            refine ⟨rfl, ?_, ?_⟩
            · show s.limiter.in_flight + 1 = _
              have h2 : ∀ ph2 : TaskPhase, holdsSlot ph2 = true →
                  s.limiter.in_flight + 1 = (s.tasks.set i ph2).countP holdsSlot := by
                intro ph2 hph2
                rw [hset ph2 hph2, hcount]
              exact h2 _ rfl
            · show s.limiter.in_flight + 1 ≤ c
              omega
          · rw [if_neg hslp]
            refine ⟨rfl, ?_, ?_⟩
            · show s.limiter.in_flight + 1 = _
              rw [hset .admitted rfl, hcount]
            · show s.limiter.in_flight + 1 ≤ c
              omega
        · rw [if_neg hfree]; exact ⟨hsem, hcount, hcap⟩
  | wake i =>
    simp only [step]
    cases hti : s.tasks[i]? with
    | none => exact ⟨hsem, hcount, hcap⟩
    | some ph =>
      cases ph with
      | start => exact ⟨hsem, hcount, hcap⟩
      | admitted => exact ⟨hsem, hcount, hcap⟩
      | done => exact ⟨hsem, hcount, hcap⟩
      | sleeping w =>
        dsimp only
        by_cases hw : w ≤ s.clock
        · rw [if_pos hw]
          refine ⟨hsem, ?_, hcap⟩
          show s.limiter.in_flight = (s.tasks.set i .admitted).countP holdsSlot
          have := countP_set_add holdsSlot .admitted s.tasks i (.sleeping w) hti
          norm_num [holdsSlot] at this
          omega
        · rw [if_neg hw]; exact ⟨hsem, hcount, hcap⟩
  | exit i raised =>
    simp only [step]
    cases hti : s.tasks[i]? with
    | none => exact ⟨hsem, hcount, hcap⟩
    | some ph =>
      cases ph with
      | start => exact ⟨hsem, hcount, hcap⟩
      | sleeping w => exact ⟨hsem, hcount, hcap⟩
      | done => exact ⟨hsem, hcount, hcap⟩
      | admitted =>
        dsimp only
        rw [releaseSlot_some s.limiter c hsem]
        have hpos : 1 ≤ s.tasks.countP holdsSlot := countP_holding_pos s.tasks i hti
        have := countP_set_add holdsSlot .done s.tasks i .admitted hti
        norm_num [holdsSlot] at this
        refine ⟨rfl, ?_, ?_⟩
        · show s.limiter.in_flight - 1 = (s.tasks.set i .done).countP holdsSlot
          omega
        · show s.limiter.in_flight - 1 ≤ c
          omega

theorem run_preserves_inv (c : ℕ) (cmds : List Cmd) :
    ∀ s : LoopState, s.limiter.semaphore = some c →
      s.limiter.in_flight = s.tasks.countP holdsSlot →
      s.limiter.in_flight ≤ c →
      (run s cmds).limiter.semaphore = some c ∧
      (run s cmds).limiter.in_flight = (run s cmds).tasks.countP holdsSlot ∧
      (run s cmds).limiter.in_flight ≤ c := by
  induction cmds with
  | nil => intro s h1 h2 h3; exact ⟨h1, h2, h3⟩
  | cons cmd rest ih =>
    intro s h1 h2 h3
    obtain ⟨g1, g2, g3⟩ := step_preserves_inv c s cmd h1 h2 h3
    exact ih (step s cmd) g1 g2 g3

/-- C6: with a configured concurrency cap `c > 0`, on every schedule the
number of completed `__aenter__` calls without a matching release never
exceeds `c`; and from any state in which task `i` is inside the scoped
acquisition, the exit step — whether the body raised or returned — releases
exactly one slot and retires the task. -/
theorem rate_limiter_concurrency_cap (r : ℚ) (c : ℕ) (hc : 0 < c) (clock0 : ℚ)
    (n : ℕ) (cmds : List Cmd) :
    admittedCount (run (initLoop r (some c) clock0 n) cmds) ≤ c ∧
    (∀ (i : ℕ) (raised : Bool),
      (run (initLoop r (some c) clock0 n) cmds).tasks[i]? = some .admitted →
      (step (run (initLoop r (some c) clock0 n) cmds) (.exit i raised)).limiter.in_flight + 1 =
        (run (initLoop r (some c) clock0 n) cmds).limiter.in_flight ∧
      (step (run (initLoop r (some c) clock0 n) cmds) (.exit i raised)).tasks[i]? =
        some .done) := by
  have hcne : c ≠ 0 := by omega
  have hinit1 : (initLoop r (some c) clock0 n).limiter.semaphore = some c := by
    simp only [initLoop, AsyncRateLimiter.init]
    simp [hcne]
  have hinit2 : (initLoop r (some c) clock0 n).limiter.in_flight =
      (initLoop r (some c) clock0 n).tasks.countP holdsSlot := by
    simp only [initLoop, AsyncRateLimiter.init]
    rw [List.countP_eq_zero.mpr]
    intro a ha
    rw [List.eq_of_mem_replicate ha]
    simp [holdsSlot]
  have hinit3 : (initLoop r (some c) clock0 n).limiter.in_flight ≤ c := by
    simp only [initLoop, AsyncRateLimiter.init]
    omega
  obtain ⟨g1, g2, g3⟩ := run_preserves_inv c cmds (initLoop r (some c) clock0 n)
    hinit1 hinit2 hinit3
  set sf := run (initLoop r (some c) clock0 n) cmds with hsf
  constructor
  · calc admittedCount sf
        ≤ sf.tasks.countP holdsSlot := by
          rw [admittedCount]
          refine List.countP_mono_left fun p hp hpe => ?_
          simp only [decide_eq_true_eq] at hpe
          rw [hpe]
          rfl
      _ = sf.limiter.in_flight := g2.symm
      _ ≤ c := g3
  · intro i raised hti
    have hlt : i < sf.tasks.length := by
      by_contra hge
      rw [List.getElem?_eq_none (by omega)] at hti
      exact Option.noConfusion hti
    have hpos : 1 ≤ sf.tasks.countP holdsSlot := countP_holding_pos sf.tasks i hti
    constructor
    · show (step sf (.exit i raised)).limiter.in_flight + 1 = sf.limiter.in_flight
      simp only [step]
      rw [hti]
      dsimp only
      rw [releaseSlot_some sf.limiter c g1]
      show sf.limiter.in_flight - 1 + 1 = sf.limiter.in_flight
      omega
    · show (step sf (.exit i raised)).tasks[i]? = some .done
      simp only [step]
      rw [hti]
      dsimp only
      exact List.getElem?_set_eq_of_lt _ hlt

end AsyncRateLimiter

theorem rate_limiter_concurrency_cap_witness :
    0 < 1 ∧
    AsyncRateLimiter.admittedCount
      (AsyncRateLimiter.run (AsyncRateLimiter.initLoop 1 (some 1) 0 1) [.enter 0]) ≤ 1 :=
  ⟨by decide, (AsyncRateLimiter.rate_limiter_concurrency_cap 1 1 (by decide) 0 1 [.enter 0]).1⟩
